import Mathlib

/-!
# Verification of the `ambry_sources` MPR row store

A shallow embedding, in Lean 4, of the parts of the `ambry_sources`
repository (mpf.py, stats.py, med/sqlite.py) that the specification's
claims are about, together with theorems settling each claim.

Python strings of the header mangler are modelled as lists of byte values
(Python 2 `str` semantics: ASCII `\w`, ASCII `lower`).  Machine integers of
the binary file header are modelled as `Nat` with explicit byte bounds.
Fallible operations return `Except`/`Option` or carry an explicit error
component.
-/

namespace AmbrySources

/-! ## Header mangler

Source (mpf.py, `MPRWriter.__init__`):

`self.header_mangler = lambda name: re.sub('_+', '_',
    re.sub('[^\w_]', '_', name.strip()).lower()).rstrip('_')`
-/

/-- ASCII `\w` test: `[A-Za-z0-9_]` (byte 95 is the underscore). -/
def isWordByte (c : Nat) : Bool :=
  (48 ≤ c && c ≤ 57) || (65 ≤ c && c ≤ 90) || (97 ≤ c && c ≤ 122) || c == 95

/-- ASCII whitespace, as stripped by Python `str.strip()`. -/
def isSpaceByte (c : Nat) : Bool :=
  c == 32 || c == 9 || c == 10 || c == 13 || c == 11 || c == 12

/-- ASCII `str.lower()` on a single byte. -/
def lowerByte (c : Nat) : Nat :=
  if 65 ≤ c && c ≤ 90 then c + 32 else c

/-- Python `name.strip()`: drop leading and trailing whitespace. -/
def pyStrip (s : List Nat) : List Nat :=
  ((s.dropWhile isSpaceByte).reverse.dropWhile isSpaceByte).reverse

/-- Python `re.sub('_+', '_', s)`: collapse every run of underscores to one. -/
def collapseUnders : List Nat → List Nat
  | [] => []
  | [a] => [a]
  | a :: b :: r =>
    if a == 95 && b == 95 then collapseUnders (b :: r)
    else a :: collapseUnders (b :: r)

/-- Python `s.rstrip('_')`: drop trailing underscores. -/
def rstripUnders (s : List Nat) : List Nat :=
  (s.reverse.dropWhile (· == 95)).reverse

/-- The header mangler of `MPRWriter` (mpf.py:741): strip, replace each
non-`\w` byte by `_`, lowercase, collapse underscore runs, strip trailing
underscores. -/
def headerMangler (name : List Nat) : List Nat :=
  rstripUnders (collapseUnders
    (((pyStrip name).map (fun c => if isWordByte c then c else 95)).map lowerByte))

/-- Bytes that can appear in mangler output: `[a-z0-9_]`. -/
def isOutByte (c : Nat) : Bool :=
  (48 ≤ c && c ≤ 57) || (97 ≤ c && c ≤ 122) || c == 95

/-- A list with no two adjacent underscores. -/
def noUnderRun : List Nat → Bool
  | [] => true
  | [_] => true
  | a :: b :: r => !(a == 95 && b == 95) && noUnderRun (b :: r)

/-! ## Object codec

Source: `MPRowsFile.encode_obj` / `MPRowsFile.decode_obj` (mpf.py:217-256),
used as the msgpack `default` hook on write and `object_hook` on read
(mpf.py:822, mpf.py:1118-1120).

A cell value is one of the supported Python scalar types.  Python
`datetime.time` and `datetime.datetime` carry a microsecond component,
which is part of the value; floats are carried opaquely by their 64-bit
pattern (msgpack stores them bit-exactly). -/

/-- A Python scalar cell value as written through `insert_row`. -/
inductive PyVal where
  | pynone
  | pyint (i : Int)
  | pyfloat (bits : Nat)
  | pystr (s : String)
  | pybytes (bs : List Nat)
  | pydate (y m d : Nat)
  | pytime (h mi s us : Nat)
  | pydatetime (y mo d h mi s us : Nat)
  deriving Repr, DecidableEq

/-- A msgpack wire value: the native scalar forms plus a map carrying the
marker keys `__datetime__`, `__time__`, `__date__` (one flag per key) and a
`value` tuple. -/
inductive Wire where
  | wnil
  | wint (i : Int)
  | wfloat (bits : Nat)
  | wstr (s : String)
  | wbytes (bs : List Nat)
  | wtagged (dtKey tmKey dKey : Bool) (value : List Nat)
  deriving Repr, DecidableEq

/-- Encoding of one cell: msgpack packs none/int/float/str/bytes natively;
for date/time/datetime values msgpack calls `encode_obj`, which emits the
marker map.  `encode_obj` keeps only `timetuple()[:6]` of a datetime and
`(hour, minute, second)` of a time, so the microsecond component is
dropped on the wire. -/
def encodeCell : PyVal → Wire
  | .pynone => .wnil
  | .pyint i => .wint i
  | .pyfloat b => .wfloat b
  | .pystr s => .wstr s
  | .pybytes bs => .wbytes bs
  | .pydatetime y mo d h mi s _us => .wtagged true false false [y, mo, d, h, mi, s]
  | .pydate y m d => .wtagged false false true [y, m, d]
  | .pytime h mi s _us => .wtagged false true false [h, mi, s]

/-- Decoding of one cell: the unpacker applies `decode_obj` to every map.
`decode_obj` tests `__datetime__`, then `__time__`, then `__date__`, and
rebuilds the value from the stored tuple (microsecond defaults to 0); an
unknown tagged object raises. -/
def decodeCell : Wire → Except String PyVal
  | .wnil => .ok .pynone
  | .wint i => .ok (.pyint i)
  | .wfloat b => .ok (.pyfloat b)
  | .wstr s => .ok (.pystr s)
  | .wbytes bs => .ok (.pybytes bs)
  | .wtagged dtKey tmKey dKey value =>
    if dtKey then
      match value with
      | [y, mo, d, h, mi, s] => .ok (.pydatetime y mo d h mi s 0)
      | _ => .error "TypeError: datetime argument mismatch"
    else if tmKey then
      match value with
      | [h, mi, s] => .ok (.pytime h mi s 0)
      | _ => .error "TypeError: time argument mismatch"
    else if dKey then
      match value with
      | [y, m, d] => .ok (.pydate y m d)
      | _ => .error "TypeError: date argument mismatch"
    else .error "Unknown type on decode"

/-- One row on the wire. -/
def encodeRow (r : List PyVal) : List Wire := r.map encodeCell

/-- Sequential decoding, stopping at the first error (the unpacker raises
out of the iteration as soon as `decode_obj` raises). -/
def exceptMapList (f : α → Except String β) : List α → Except String (List β)
  | [] => .ok []
  | a :: l =>
    match f a with
    | .error e => .error e
    | .ok b => (exceptMapList f l).map (fun bs => b :: bs)

/-- The row stream produced by repeated `insert_row`: each row is flushed
as its own msgpack batch (the `if True or len(self.cache) >= BLOCK_SIZE`
in `insert_row` makes every row a one-row batch). -/
def writeRowsStream (rows : List (List PyVal)) : List (List (List Wire)) :=
  rows.map (fun r => [encodeRow r])

/-- Decoding of one row. -/
def decodeRow (r : List Wire) : Except String (List PyVal) := exceptMapList decodeCell r

/-- `MPRReader.raw` (mpf.py:1164-1180): iterate the unpacker's batches and
yield every row of every batch in file order. -/
def rawRead (stream : List (List (List Wire))) : Except String (List (List PyVal)) :=
  exceptMapList decodeRow stream.flatten

/-- True when a value carries no sub-second component (time and datetime
microsecond equal to zero); all other scalars trivially qualify. -/
def microFree : PyVal → Bool
  | .pytime _ _ _ us => us == 0
  | .pydatetime _ _ _ _ _ _ us => us == 0
  | _ => true

/-! ## File header codec

Source: `MPRowsFile.read_file_header` / `MPRowsFile.write_file_header`
(mpf.py:258-284), struct format `>8sHIIQII` (34 bytes, big-endian). -/

/-- Big-endian encoding of `n` on `k` bytes (the low `8*k` bits of `n`;
`struct.pack` additionally raises for out-of-range values, which
`headerInRange` guards). -/
def natToBE : Nat → Nat → List Nat
  | 0, _ => []
  | k + 1, n => natToBE k (n / 256) ++ [n % 256]

/-- Big-endian decoding of a byte list. -/
def natFromBE (l : List Nat) : Nat := l.foldl (fun a b => a * 256 + b) 0

/-- The file magic `AMBRMPDF` as bytes. -/
def MAGIC : List Nat := [65, 77, 66, 82, 77, 80, 68, 70]

/-- The seven header fields, as read back by `read_file_header`. -/
structure FileHeader where
  magic : List Nat
  version : Nat
  n_rows : Nat
  n_cols : Nat
  meta_start : Nat
  data_start_row : Nat
  data_end_row : Nat
  deriving Repr, DecidableEq

/-- Ranges accepted by `struct.pack('>8sHIIQII', ...)` for the integer
fields. -/
def headerInRange (h : FileHeader) : Bool :=
  h.version < 2 ^ 16 && h.n_rows < 2 ^ 32 && h.n_cols < 2 ^ 32 &&
  h.meta_start < 2 ^ 64 && h.data_start_row < 2 ^ 32 && h.data_end_row < 2 ^ 32

/-- `write_file_header` (mpf.py:266-284): packs the constant magic and
version together with the object's counters, writing
`o.data_end_row if o.data_end_row else o.n_rows` for the last field
(Python truthiness: a `data_end_row` of 0, like `None`, falls back to
`n_rows`).  The bytes land at offset 0 of the file. -/
def writeFileHeader (h : FileHeader) : List Nat :=
  MAGIC ++ natToBE 2 1 ++ natToBE 4 h.n_rows ++ natToBE 4 h.n_cols ++
  natToBE 8 h.meta_start ++ natToBE 4 h.data_start_row ++
  natToBE 4 (if h.data_end_row ≠ 0 then h.data_end_row else h.n_rows)

/-- `read_file_header` (mpf.py:258-264): unpack the leading 34 bytes into
the seven fields.  `struct.unpack` raises (wrapped into `IOError`) only
when fewer than 34 bytes are available; no magic or version check is
performed. -/
def readFileHeader (bytes : List Nat) : Except String FileHeader :=
  if bytes.length < 34 then .error "IOError: Failed to read file header"
  else .ok {
    magic := bytes.take 8
    version := natFromBE ((bytes.drop 8).take 2)
    n_rows := natFromBE ((bytes.drop 10).take 4)
    n_cols := natFromBE ((bytes.drop 14).take 4)
    meta_start := natFromBE ((bytes.drop 18).take 8)
    data_start_row := natFromBE ((bytes.drop 26).take 4)
    data_end_row := natFromBE ((bytes.drop 30).take 4) }

/-! ## `load_rows` failure path

Source: `MPRowsFile.load_rows` (mpf.py:501-518).  The `except:` handler
reads

    except:
        raise
        self.writer.close()
        self.remove()
        raise

so the first bare `raise` re-raises immediately and the `close`/`remove`
cleanup below it is unreachable. -/

/-- Outcome of a `load_rows` call: the propagated exception (if any),
whether the MPR file is still on disk afterwards, and how many source rows
were appended before the failure. -/
structure LoadOutcome where
  err : Option String
  fileOnDisk : Bool
  rowsWritten : Nat
  deriving Repr, DecidableEq

/-- The `except:` handler as executed: re-raise at once, leaving the
file in place (mpf.py:513). -/
def loadExceptHandler (e : String) (fileOnDisk : Bool) : Option String × Bool :=
  (some e, fileOnDisk)

/-- `load_rows` control flow: opening `self.writer` creates the file on
disk; the source iterator appends `goodRows` rows and then either finishes
or raises; a raise goes through `loadExceptHandler`. -/
def loadRowsAttempt (goodRows : Nat) (sourceRaises : Bool) : LoadOutcome :=
  if sourceRaises then
    let handled := loadExceptHandler "exception raised by the source iterator" true
    { err := handled.1, fileOnDisk := handled.2, rowsWritten := goodRows }
  else
    { err := Option.none, fileOnDisk := true, rowsWritten := goodRows }

/-! ## Writer row/column counters

Source: `MPRWriter._write_rows` / `insert_row` / `insert_rows`
(mpf.py:814-870). -/

/-- The writer state relevant to the counters: `n_rows`, `n_cols` and the
row cache. -/
structure WriterCounters where
  n_rows : Nat
  n_cols : Nat
  cache : List (List Int)
  deriving Repr, DecidableEq

/-- `_write_rows` (mpf.py:814-833): an empty argument means "flush the
cache"; nothing happens on an empty row list; otherwise `n_cols` is folded
with `max` over the lengths of only the first 100 rows of the batch
(`rows[:100]`), and the cache is cleared when it was the source. -/
def writeRowsCounters (w : WriterCounters) (arg : List (List Int)) : WriterCounters :=
  let pair := if arg.isEmpty then (w.cache, true) else (arg, false)
  if pair.1.isEmpty then w
  else
    { w with
      n_cols := ((pair.1.take 100).map List.length).foldl max w.n_cols
      cache := if pair.2 then [] else w.cache }

/-- `insert_row` (mpf.py:856-863): bump `n_rows`, append to the cache,
and (because of the `if True or ...`) immediately flush. -/
def insertRow (w : WriterCounters) (row : List Int) : WriterCounters :=
  writeRowsCounters { w with n_rows := w.n_rows + 1, cache := w.cache ++ [row] } []

/-- `insert_rows` (mpf.py:865-870): bump `n_rows` by the batch length and
write the batch directly. -/
def insertRows (w : WriterCounters) (rows : List (List Int)) : WriterCounters :=
  writeRowsCounters { w with n_rows := w.n_rows + rows.length } rows

/-- One append operation against the writer. -/
inductive WriteOp where
  | one (r : List Int)
  | many (rs : List (List Int))
  deriving Repr, DecidableEq

/-- Run a sequence of appends. -/
def applyWriteOps (w : WriterCounters) (ops : List WriteOp) : WriterCounters :=
  ops.foldl (fun w op =>
    match op with
    | .one r => insertRow w r
    | .many rs => insertRows w rs) w

/-- Number of rows one operation appends (`n_rows += 1` in `insert_row`,
`n_rows += len(rows)` in `insert_rows`). -/
def opRowCount : WriteOp → Nat
  | .one _ => 1
  | .many rs => rs.length

/-- Number of rows appended by a sequence of operations. -/
def opsRowCount (ops : List WriteOp) : Nat := (ops.map opRowCount).sum

/-- Lengths of the rows that `_write_rows` actually examines for
`n_cols`: every `insert_row` row, but only the first 100 rows of each
`insert_rows` batch. -/
def consideredLengths (ops : List WriteOp) : List Nat :=
  ops.foldr (fun op acc =>
    match op with
    | .one r => r.length :: acc
    | .many rs => (rs.take 100).map List.length ++ acc) []

/-- Lengths of all appended rows. -/
def allLengths (ops : List WriteOp) : List Nat :=
  ops.foldr (fun op acc =>
    match op with
    | .one r => r.length :: acc
    | .many rs => rs.map List.length ++ acc) []

/-! ## Streaming statistics: `StatSet.add`

Source: `StatSet` (stats.py:48-159), for a numeric (INTERVAL) column fed
integer values.  The running moments live in a `livestats.LiveStats`
object; the `livestats` library is an external collaborator not present in
this repository, so its moments are modelled from the spec. -/

/-- Level of measurement (stats.py:49-54). -/
inductive Lom where
  | nominal
  | ordinal
  | interval
  deriving Repr, DecidableEq

/-- A `collections.Counter` over integer univals: Python renders the value
with `str` before counting (stats.py:110), and `str` is injective on ints,
so the counter is keyed by the value itself. -/
def countsAdd : List (Int × Nat) → Int → List (Int × Nat)
  | [], v => [(v, 1)]
  | (k, c) :: rest, v =>
    if k == v then (k, c + 1) :: rest else (k, c) :: countsAdd rest v

/-- Total multiplicity added to a bin at one reclassification or add. -/
def bumpBinBy (bins : List Nat) (i cnt : Nat) : List Nat :=
  bins.set i (bins.getD i 0 + cnt)

/-- Newton iteration for the integer square root, with explicit fuel so
that it reduces structurally. -/
def natSqrtIter : Nat → Nat → Nat → Nat
  | 0, _, guess => guess
  | fuel + 1, n, guess =>
    let next := (guess + n / guess) / 2
    if next < guess then natSqrtIter fuel n next else guess

/-- Floor integer square root (Newton iteration, fuel `n`). -/
def natSqrtFuel (n : Nat) : Nat :=
  if n ≤ 1 then n else natSqrtIter n n (n / 2)

/-- An unnormalized exact rational `num / den` (`den > 0` throughout):
the arithmetic the histogram bounds are carried in.  Exact rationals
stand in for the source's 64-bit floats. -/
structure Frac where
  num : Int
  den : Int
  deriving Repr, DecidableEq

/-- Comparison by cross-multiplication (denominators positive). -/
def fracLe (a b : Frac) : Bool := a.num * b.den ≤ b.num * a.den

def fracAdd (a b : Frac) : Frac := ⟨a.num * b.den + b.num * a.den, a.den * b.den⟩

def fracSub (a b : Frac) : Frac := ⟨a.num * b.den - b.num * a.den, a.den * b.den⟩

def fracMul (a b : Frac) : Frac := ⟨a.num * b.num, a.den * b.den⟩

/-- Division of a fraction by a positive integer. -/
def fracDivInt (a : Frac) (k : Int) : Frac := ⟨a.num, a.den * k⟩

/-- An integer as a fraction. -/
def intFrac (v : Int) : Frac := ⟨v, 1⟩

/-- An integer multiple of a fraction. -/
def fracScale (k : Int) (a : Frac) : Frac := ⟨k * a.num, a.den⟩

/-- Modelled from the spec: the standard deviation used for
`bin_min = mean - 2σ` (§4.6); `livestats` is an external library, so σ is
taken as an exact-on-perfect-squares rational square root,
`sqrt (n/d) = sqrt (n·d) / d` (floor square root underneath, clamped at 0
for a non-positive argument). -/
def fracSqrt (q : Frac) : Frac :=
  if q.num ≤ 0 then ⟨0, 1⟩
  else ⟨((natSqrtFuel (q.num * q.den).toNat : Nat) : Int), q.den⟩

/-- Bin index `int((float_v - bin_min) / bin_width)` (stats.py:146,152);
for `float_v ≥ bin_min` and positive width the truncation equals the
floor, computed here on the exact fraction `(v - bmin) / bwidth`. -/
def binIndex (bmin bwidth : Frac) (v : Int) : Nat :=
  (((fracSub (intFrac v) bmin).num * bwidth.den) /
    (bwidth.num * (fracSub (intFrac v) bmin).den)).toNat

/-- The per-column state of `StatSet` for the histogram claims: counter,
histogram bins and bounds, and the running moments of the stats object
(count, sum, sum of squares — modelled from the spec, see `ratSqrt`). -/
structure StatSet where
  lom : Lom
  n : Nat
  counts : List (Int × Nat)
  size : Nat
  momN : Nat
  momSum : Int
  momSumSq : Int
  binMin : Option Frac
  binMax : Option Frac
  binWidth : Option Frac
  bins : List Nat
  deriving Repr, DecidableEq

/-- A fresh `StatSet` (stats.py:85-98): `bin_primer_count = 5000`,
`num_bins = 16`, all bins zero, no bounds yet. -/
def initStatSet (lom : Lom) : StatSet :=
  { lom := lom, n := 0, counts := [], size := 0, momN := 0, momSum := 0,
    momSumSq := 0, binMin := Option.none, binMax := Option.none,
    binWidth := Option.none, bins := List.replicate 16 0 }

/-- Reclassification of the primer counter into the bins
(stats.py:143-147): each counted value inside `[bin_min, bin_max]` adds
its multiplicity to its bin. -/
def reclassify (bmin bmax bwidth : Frac) (counts : List (Int × Nat))
    (bins : List Nat) : List Nat :=
  counts.foldl (fun bins kc =>
    if fracLe bmin (intFrac kc.1) && fracLe (intFrac kc.1) bmax then
      bumpBinBy bins (binIndex bmin bwidth kc.1) kc.2
    else bins) bins

/-- `StatSet.add` (stats.py:104-159) specialised to integer values on a
numeric column.  `self.n` is incremented first; for `n < 5000` the value
goes to the primer counter; at exactly `n = 5000` the column is either
downgraded to ORDINAL (fewer than `5000/100 = 50` uniques, with the stats
object replaced by a fresh one) or the bin bounds are fixed at
`mean ± 2σ` of the 4999 primer values and the primer is reclassified — the
5000th value itself is neither counted in the primer nor binned; past the
primer an in-range value increments its bin (`self.bins[bin_] += 1`; the
source would raise `IndexError` for a value exactly equal to `bin_max`,
whose index is 16 — no state reached in the theorems below does so).
`self.stats.add(float(v))` runs at the end of every numeric add.  Once the
LOM is NOMINAL or ORDINAL an add only feeds the counter. -/
def statSetAdd (s : StatSet) (v : Int) : StatSet :=
  let n := s.n + 1
  let size := max s.size (toString v).length
  match s.lom with
  | .nominal => { s with n := n, size := size, counts := countsAdd s.counts v }
  | .ordinal => { s with n := n, size := size, counts := countsAdd s.counts v }
  | .interval =>
    let s1 := { s with n := n, size := size }
    let s2 :=
      if n < 5000 then { s1 with counts := countsAdd s1.counts v }
      else if n == 5000 then
        if s1.counts.length < 50 then
          { s1 with lom := .ordinal, counts := [], momN := 0, momSum := 0, momSumSq := 0 }
        else
          let mean : Frac := ⟨s1.momSum, (s1.momN : Int)⟩
          let variance : Frac := fracSub ⟨s1.momSumSq, (s1.momN : Int)⟩ (fracMul mean mean)
          let sigma := fracSqrt variance
          let bmin := fracSub mean (fracScale 2 sigma)
          let bmax := fracAdd mean (fracScale 2 sigma)
          let bwidth := fracDivInt (fracSub bmax bmin) 16
          { s1 with
            binMin := some bmin, binMax := some bmax, binWidth := some bwidth
            bins := reclassify bmin bmax bwidth s1.counts s1.bins
            counts := [] }
      else
        match s1.binMin, s1.binMax, s1.binWidth with
        | some bmin, some bmax, some bwidth =>
          if fracLe bmin (intFrac v) && fracLe (intFrac v) bmax then
            { s1 with bins := bumpBinBy s1.bins (binIndex bmin bwidth v) 1 }
          else s1
        | _, _, _ => s1
    { s2 with momN := s2.momN + 1, momSum := s2.momSum + v,
              momSumSq := s2.momSumSq + v * v }

/-- Sum of all histogram bins. -/
def binsSum (s : StatSet) : Nat := s.bins.sum

/-- Whether a value lies inside the established `[bin_min, bin_max]`
bounds (false while the bounds are still unset). -/
def withinBins (s : StatSet) (v : Int) : Bool :=
  match s.binMin, s.binMax with
  | some bmin, some bmax => fracLe bmin (intFrac v) && fracLe (intFrac v) bmax
  | _, _ => false

/-- Feed a list of values to a StatSet. -/
def statSetAddAll (s : StatSet) (vs : List Int) : StatSet :=
  vs.foldl statSetAdd s

/-- The values `0, 1, ..., 49` — one period of the histogram test input. -/
def cycle50 : List Int := (List.range 50).map (fun i => ((i : Nat) : Int))

/-- Five periods (250 values). -/
def chunk250 : List Int := cycle50 ++ cycle50 ++ cycle50 ++ cycle50 ++ cycle50

/-- The histogram failing input: the value `i % 50` added for
`i = 0, ..., 4999` (5000 adds, 50 distinct values, all of which end up
inside the computed `[bin_min, bin_max]`). -/
def c7Input : List Int := (List.replicate 20 chunk250).flatten

/-- The StatSet reached by the failing input. -/
def c7Final : StatSet := statSetAddAll (initStatSet .interval) c7Input

/-- The counter after `50 * k` primer adds of the cyclic input: each of
the 50 values seen `k` times, in first-seen order. -/
def primerCounts (k : Nat) : List (Int × Nat) :=
  (List.range 50).map (fun i => (((i : Nat) : Int), k))

/-- The StatSet after `50 * k` adds of the cyclic input, for
`1 ≤ k ≤ 99` (still inside the primer): sum of one period is `1225`, sum
of squares `40425`, every rendered value at most two characters. -/
def primerState (k : Nat) : StatSet :=
  { lom := .interval, n := 50 * k, counts := primerCounts k, size := 2,
    momN := 50 * k, momSum := 1225 * k, momSumSq := 40425 * k,
    binMin := Option.none, binMax := Option.none, binWidth := Option.none,
    bins := List.replicate 16 0 }

/-- The StatSet after all 5000 adds, written out: the 5000th add fixed the
bounds from the 4999 primer values (mean `122451/4999`, population
variance `(4042500 - mean²·4999)/4999`) and reclassified the primer, so
the bins hold 4999 values while `n = 5000`. -/
def c7FinalState : StatSet :=
  { lom := .interval, n := 5000, counts := [], size := 2,
    momN := 5000, momSum := 122500, momSumSq := 4042500,
    binMin := some { num := -2723572738402617, den := 624500149980001 },
    binMax := some { num := 33317958761687715, den := 624500149980001 },
    binWidth := some { num := 22507941827315342759079493450332, den := 6240006997200699888011199360016 },
    bins := [0, 300, 400, 400, 300, 400, 300, 400, 400, 300, 400, 300, 400, 400, 299, 0] }

/-! ## Stats engine sampling: `Stats.run`

Source: `Stats.run` (stats.py:305-346).  `average_skip` is
`sample_from / SAMPLE_ROWS` with `SAMPLE_ROWS = 10000`; the module has no
`from __future__ import division`, so under Python 2 this is integer
division, which the model follows. -/

/-- The sampling loop (`for i, row in enumerate(source): if i %
average_skip == 0: process_row(row)`). -/
def sampleLoop (skip : Nat) : Nat → List α → List α
  | _, [] => []
  | i, r :: rest =>
    if i % skip == 0 then r :: sampleLoop skip (i + 1) rest
    else sampleLoop skip (i + 1) rest

/-- `Stats.run`: the list of rows actually processed.  With no
`sample_from` every row is processed; otherwise the stride loop runs only
when `average_skip > 4`. -/
def statsRun (sampleFrom : Option Nat) (rows : List α) : List α :=
  match sampleFrom with
  | Option.none => rows
  | some n =>
    let averageSkip := n / 10000
    if 4 < averageSkip then sampleLoop averageSkip 0 rows
    else rows

/-! ## SQLite virtual-table adapter

Source: `TYPE_MAP` and `Source.Create` (med/sqlite.py:20-27, 175-198).
`binary_type.__name__` / `text_type.__name__` are `bytes` / `str` under
Python 3. -/

/-- The python-type-name to SQLite-type map (med/sqlite.py:20-27).  There
is no entry for `time`. -/
def TYPE_MAP : List (String × String) :=
  [("int", "INTEGER"), ("float", "REAL"), ("bytes", "TEXT"), ("str", "TEXT"),
   ("date", "DATE"), ("datetime", "TIMESTAMP WITHOUT TIME ZONE")]

/-- `TYPE_MAP.get(column['type'])`. -/
def typeMapGet (t : String) : Option String :=
  (TYPE_MAP.find? (fun kv => kv.1 == t)).map Prod.snd

/-- A schema column as seen by `Source.Create`: name, resolved type name,
position. -/
structure MedColumn where
  name : String
  type : String
  pos : Nat
  deriving Repr, DecidableEq

/-- Stable insertion into a pos-sorted list. -/
def insertByPos (c : MedColumn) : List MedColumn → List MedColumn
  | [] => [c]
  | d :: rest =>
    if c.pos ≤ d.pos then c :: d :: rest else d :: insertByPos c rest

/-- `sorted(mprows.reader.columns, key=lambda x: x['pos'])`. -/
def sortByPos : List MedColumn → List MedColumn
  | [] => []
  | c :: rest => insertByPos c (sortByPos rest)

/-- The column loop of `Source.Create` (med/sqlite.py:184-189): map each
column type through `TYPE_MAP`, raising when the lookup fails. -/
def createColumnDefs : List MedColumn → Except String (List (String × String))
  | [] => .ok []
  | c :: rest =>
    match typeMapGet c.type with
    | Option.none =>
      .error ("Do not know how to convert " ++ c.type ++ " to sql column.")
    | some sqlType =>
      (createColumnDefs rest).map (fun tl => (c.name, sqlType) :: tl)

/-- `Source.Create` (med/sqlite.py:175-194): sort the columns by `pos`,
convert each type, and return the `CREATE TABLE` text together with the
column names. -/
def sourceCreate (tablename : String) (cols : List MedColumn) :
    Except String (String × List String) :=
  (createColumnDefs (sortByPos cols)).map (fun colDefs =>
    ("CREATE TABLE " ++ tablename ++ "(" ++
      String.intercalate ",\n" (colDefs.map (fun cd => "\x22" ++ cd.1 ++ "\x22 " ++ cd.2)) ++
      ");",
     colDefs.map Prod.fst))

/-! ## `MPRowsFile.close`

Source: mpf.py:388-394:

    def close(self):
        if self._reader:
            self._reader.close()
        if self._writer:
            self._reader.close()

The second branch closes `self._reader` — not the writer. -/

/-- A reader handle: whether its file handle is still open. -/
structure ReaderHandle where
  fhOpen : Bool
  deriving Repr, DecidableEq

/-- A writer handle: pending cached rows and whether `close` (which would
flush rows and write header and meta) has run. -/
structure WriterHandle where
  pendingRows : Nat
  closed : Bool
  deriving Repr, DecidableEq

/-- The `_reader` / `_writer` attributes of an `MPRowsFile`. -/
structure MPRFileHandles where
  reader : Option ReaderHandle
  writer : Option WriterHandle
  deriving Repr, DecidableEq

/-- `MPRReader.close` (mpf.py:1310-1316): when the file handle is open it
is closed and `self.parent._reader` is set to `None`; otherwise nothing
happens. -/
def readerClose (st : MPRFileHandles) (r : ReaderHandle) : MPRFileHandles :=
  if r.fhOpen then { st with reader := Option.none } else st

/-- `MPRowsFile.close` (mpf.py:388-394).  The first branch closes the
reader if the attribute is set; the second branch, guarded by the writer,
again invokes `self._reader.close()` — raising `AttributeError` when the
reader attribute is `None` by then.  The writer is never touched.  The
result pairs the raised error (if any) with the attribute state. -/
def mprFileClose (st : MPRFileHandles) : Option String × MPRFileHandles :=
  let st1 :=
    match st.reader with
    | Option.none => st
    | some r => readerClose st r
  match st.writer with
  | Option.none => (Option.none, st1)
  | some _ =>
    match st1.reader with
    | Option.none =>
      (some "AttributeError: NoneType object has no attribute close", st1)
    | some r => (Option.none, readerClose st1 r)

/-! # Claims

Helper lemmas first, then one theorem per claim (with its witness or
counterexample where applicable). -/

/-! ## C1: row round-trip through the object codec -/

theorem decodeCell_encodeCell (v : PyVal) (h : microFree v = true) :
    decodeCell (encodeCell v) = .ok v := by
  cases v <;> simp_all [microFree, encodeCell, decodeCell]

theorem decodeRow_encodeRow (r : List PyVal) (h : ∀ v ∈ r, microFree v = true) :
    decodeRow (encodeRow r) = .ok r := by
  induction r with
  | nil => rfl
  | cons a l ih =>
    have ha := h a (List.mem_cons_self a l)
    have hl : ∀ v ∈ l, microFree v = true := fun v hv => h v (List.mem_cons_of_mem a hv)
    simp only [encodeRow, List.map_cons, decodeRow, exceptMapList,
      decodeCell_encodeCell a ha]
    have := ih hl
    simp only [decodeRow, encodeRow] at this
    simp [this, Except.map]

/-- C1, corrected.  Original claim: writing any rows of supported scalar
types and reading them back with a raw iteration yields the same rows,
with none/date/time/datetime preserved.  `encode_obj` keeps only
`timetuple()[:6]` of a datetime and `(hour, minute, second)` of a time, so
the microsecond component is dropped (see `c1_roundtrip_counterexample`).
Amended: the round-trip is the identity for rows whose time and datetime
cells carry no sub-second component (`microFree`); none, date, and such
time/datetime values are preserved exactly. -/
theorem c1_rows_roundtrip (rows : List (List PyVal))
    (h : ∀ r ∈ rows, ∀ v ∈ r, microFree v = true) :
    rawRead (writeRowsStream rows) = .ok rows := by
  induction rows with
  | nil => rfl
  | cons r rs ih =>
    have hr := h r (List.mem_cons_self r rs)
    have hrs : ∀ q ∈ rs, ∀ v ∈ q, microFree v = true :=
      fun q hq => h q (List.mem_cons_of_mem r hq)
    simp only [writeRowsStream, List.map_cons, rawRead, List.flatten_cons,
      List.singleton_append, exceptMapList, decodeRow_encodeRow r hr]
    have := ih hrs
    simp only [rawRead, writeRowsStream] at this
    simp [this, Except.map]

/-- Witness for C1: a concrete two-row write/read round-trip covering
none, int, string, date and a whole-second datetime. -/
theorem c1_rows_roundtrip_witness :
    rawRead (writeRowsStream
      [[.pyint 3, .pystr "a", .pynone],
       [.pydate 2020 1 2, .pydatetime 2020 1 2 3 4 5 0, .pytime 7 8 9 0]]) =
      .ok [[.pyint 3, .pystr "a", .pynone],
           [.pydate 2020 1 2, .pydatetime 2020 1 2 3 4 5 0, .pytime 7 8 9 0]] :=
  c1_rows_roundtrip _ (by decide)

/-- Counterexample for C1 as stated: a `datetime.time(12, 30, 5, 500000)`
cell comes back as `time(12, 30, 5)` — the microsecond component is lost,
so the sequence read back is not value-equal to the sequence written. -/
theorem c1_roundtrip_counterexample :
    rawRead (writeRowsStream [[.pytime 12 30 5 500000]]) =
      .ok [[.pytime 12 30 5 0]] ∧
    ([[PyVal.pytime 12 30 5 0]] : List (List PyVal)) ≠ [[.pytime 12 30 5 500000]] :=
  ⟨rfl, by decide⟩

/-! ## C2: header read performs no magic/version validation -/

/-- C2, corrected.  Original claim: a read whose magic is not `AMBRMPDF`
or whose version is not 1 fails with CorruptFile.  `read_file_header`
performs no such check: it succeeds on any input holding at least the 34
struct bytes (returning the fields verbatim, whatever the magic and
version), and fails — with IOError, not CorruptFile — exactly when fewer
bytes are available. -/
theorem c2_read_header_no_validation (bytes : List Nat) :
    (readFileHeader bytes).isOk = decide (34 ≤ bytes.length) := by
  by_cases h : bytes.length < 34
  · have hge : ¬ (34 ≤ bytes.length) := by omega
    simp [readFileHeader, h, Except.isOk, Except.toBool, hge]
  · have hge : 34 ≤ bytes.length := by omega
    simp [readFileHeader, h, Except.isOk, Except.toBool, hge]

/-- Counterexample for C2 as stated: 34 zero bytes carry neither the magic
nor version 1, yet `read_file_header` returns a header rather than
failing. -/
theorem c2_read_header_counterexample :
    readFileHeader (List.replicate 34 0) =
      .ok { magic := List.replicate 8 0, version := 0, n_rows := 0, n_cols := 0,
            meta_start := 0, data_start_row := 0, data_end_row := 0 } ∧
    (List.replicate 34 0).take 8 ≠ MAGIC ∧ (0 : Nat) ≠ 1 :=
  ⟨rfl, by decide, by decide⟩

/-! ## C3: a failed load does not delete the file -/

/-- C3: the code_bug evaluation.  A source that raises after 100 appended
rows propagates its exception out of `load_rows`, and the partial MPR file
is still on disk: the `except:` handler's first statement is a bare
`raise` (mpf.py:513), so the `self.writer.close(); self.remove()` cleanup
below it never runs. -/
theorem c3_load_failure_keeps_file :
    ((loadRowsAttempt 100 true).err).isSome = true ∧
    (loadRowsAttempt 100 true).fileOnDisk = true := by
  decide

/-! ## C4: file-header round-trip -/

theorem natToBE_length (k n : Nat) : (natToBE k n).length = k := by
  induction k generalizing n with
  | zero => rfl
  | succ k ih => simp [natToBE, ih]

theorem natFromBE_foldl (k n a : Nat) (h : n < 256 ^ k) :
    (natToBE k n).foldl (fun x b => x * 256 + b) a = a * 256 ^ k + n := by
  induction k generalizing n a with
  | zero =>
    simp only [natToBE, List.foldl_nil, pow_zero] at h ⊢
    omega
  | succ k ih =>
    have hdiv : n / 256 < 256 ^ k := by
      rw [Nat.div_lt_iff_lt_mul (by omega : 0 < 256)]
      calc n < 256 ^ (k + 1) := h
        _ = 256 ^ k * 256 := by rw [pow_succ]
    rw [natToBE, List.foldl_append, ih (n / 256) a hdiv]
    simp only [List.foldl_cons, List.foldl_nil]
    have hmod := Nat.div_add_mod n 256
    have : 256 ^ (k + 1) = 256 ^ k * 256 := by rw [pow_succ]
    nlinarith [hmod, this]

theorem natFromBE_natToBE (k n : Nat) (h : n < 256 ^ k) :
    natFromBE (natToBE k n) = n := by
  have := natFromBE_foldl k n 0 h
  simpa [natFromBE] using this

theorem drop_split (l : List Nat) (a b : Nat) : l.drop (a + b) = (l.drop a).drop b := by
  rw [List.drop_drop]

theorem readFileHeader_fields
    (m8 v2 r4 c4 q8 s4 e4 rest : List Nat)
    (hm : m8.length = 8) (hv : v2.length = 2) (hr : r4.length = 4)
    (hc : c4.length = 4) (hq : q8.length = 8) (hs : s4.length = 4)
    (he : e4.length = 4) :
    readFileHeader (m8 ++ (v2 ++ (r4 ++ (c4 ++ (q8 ++ (s4 ++ (e4 ++ rest))))))) =
      .ok { magic := m8, version := natFromBE v2, n_rows := natFromBE r4,
            n_cols := natFromBE c4, meta_start := natFromBE q8,
            data_start_row := natFromBE s4, data_end_row := natFromBE e4 } := by
  set bytes := m8 ++ (v2 ++ (r4 ++ (c4 ++ (q8 ++ (s4 ++ (e4 ++ rest)))))) with hb
  have d8 : bytes.drop 8 = v2 ++ (r4 ++ (c4 ++ (q8 ++ (s4 ++ (e4 ++ rest))))) :=
    List.drop_left' hm
  have d10 : bytes.drop 10 = r4 ++ (c4 ++ (q8 ++ (s4 ++ (e4 ++ rest)))) := by
    rw [show (10 : Nat) = 8 + 2 from rfl, drop_split, d8, List.drop_left' hv]
  have d14 : bytes.drop 14 = c4 ++ (q8 ++ (s4 ++ (e4 ++ rest))) := by
    rw [show (14 : Nat) = 10 + 4 from rfl, drop_split, d10, List.drop_left' hr]
  have d18 : bytes.drop 18 = q8 ++ (s4 ++ (e4 ++ rest)) := by
    rw [show (18 : Nat) = 14 + 4 from rfl, drop_split, d14, List.drop_left' hc]
  have d26 : bytes.drop 26 = s4 ++ (e4 ++ rest) := by
    rw [show (26 : Nat) = 18 + 8 from rfl, drop_split, d18, List.drop_left' hq]
  have d30 : bytes.drop 30 = e4 ++ rest := by
    rw [show (30 : Nat) = 26 + 4 from rfl, drop_split, d26, List.drop_left' hs]
  have hlen : bytes.length = 34 + rest.length := by
    simp only [hb, List.length_append, hm, hv, hr, hc, hq, hs, he]
    omega
  have t0 : bytes.take 8 = m8 := List.take_left' hm
  unfold readFileHeader
  rw [if_neg (by omega)]
  rw [t0, d8, d10, d14, d18, d26, d30, List.take_left' hv, List.take_left' hr,
    List.take_left' hc, List.take_left' hq, List.take_left' hs, List.take_left' he]

/-- C4, corrected.  Original claim: any header with the valid magic,
version 1 and `0 ≤ data_start_row ≤ data_end_row < n_rows` (for
`n_rows > 0`) round-trips exactly through write-then-read.
`write_file_header` packs `o.data_end_row if o.data_end_row else o.n_rows`,
so the Python-falsy value `data_end_row = 0` — allowed by those ranges
whenever `data_start_row = 0` — is replaced by `n_rows` on disk (see
`c4_header_roundtrip_counterexample`).  Amended: the round-trip is exact
for headers whose fields also fit the struct ranges and whose
`data_end_row` is non-zero (or whose `n_rows` is zero), regardless of what
follows the 34 header bytes in the file. -/
theorem c4_header_roundtrip (h : FileHeader) (rest : List Nat)
    (hin : headerInRange h = true) (hmagic : h.magic = MAGIC) (hver : h.version = 1)
    (hde : h.data_end_row ≠ 0 ∨ h.n_rows = 0) :
    readFileHeader (writeFileHeader h ++ rest) = .ok h := by
  obtain ⟨mg, ver, nr, nc, ms, ds, de⟩ := h
  simp only [headerInRange, Bool.and_eq_true, decide_eq_true_eq] at hin
  obtain ⟨⟨⟨⟨⟨hver16, hnr⟩, hnc⟩, hms⟩, hds⟩, hdeR⟩ := hin
  norm_num at hver16 hnr hnc hms hds hdeR
  simp only at hmagic hver hde
  subst hmagic hver
  have hde4 : (if de ≠ 0 then de else nr) < 256 ^ 4 := by
    have hp : (256 : Nat) ^ 4 = 4294967296 := by norm_num
    rw [hp]
    split <;> omega
  rw [writeFileHeader]
  simp only [List.append_assoc]
  rw [readFileHeader_fields MAGIC _ _ _ _ _ _ rest rfl (natToBE_length 2 1)
    (natToBE_length 4 nr) (natToBE_length 4 nc) (natToBE_length 8 ms)
    (natToBE_length 4 ds) (natToBE_length 4 _)]
  rw [natFromBE_natToBE 2 1 (by norm_num),
    natFromBE_natToBE 4 nr (by norm_num; omega),
    natFromBE_natToBE 4 nc (by norm_num; omega),
    natFromBE_natToBE 8 ms (by norm_num; omega),
    natFromBE_natToBE 4 ds (by norm_num; omega),
    natFromBE_natToBE 4 _ hde4]
  rcases hde with hde | hde
  · rw [if_pos hde]
  · subst hde
    rcases Nat.eq_zero_or_pos de with h0 | h0
    · subst h0
      simp
    · rw [if_pos (by omega)]

/-- Witness for C4: a concrete valid header with non-zero `data_end_row`
round-trips exactly, with trailing file content present. -/
theorem c4_header_roundtrip_witness :
    readFileHeader (writeFileHeader
      { magic := MAGIC, version := 1, n_rows := 2, n_cols := 3,
        meta_start := 40, data_start_row := 0, data_end_row := 1 } ++ [9, 9]) =
      .ok { magic := MAGIC, version := 1, n_rows := 2, n_cols := 3,
            meta_start := 40, data_start_row := 0, data_end_row := 1 } :=
  c4_header_roundtrip _ _ (by decide) rfl rfl (Or.inl (by decide))

/-- Counterexample for C4 as stated: the header with `n_rows = 1`,
`data_start_row = 0`, `data_end_row = 0` satisfies the claim's valid
ranges (`0 ≤ 0 ≤ 0 < 1`), but reads back with `data_end_row = 1`. -/
theorem c4_header_roundtrip_counterexample :
    readFileHeader (writeFileHeader
      { magic := MAGIC, version := 1, n_rows := 1, n_cols := 1,
        meta_start := 34, data_start_row := 0, data_end_row := 0 }) =
      .ok { magic := MAGIC, version := 1, n_rows := 1, n_cols := 1,
            meta_start := 34, data_start_row := 0, data_end_row := 1 } ∧
    ((0 : Nat) ≤ 0 ∧ 0 ≤ 0 ∧ 0 < 1) ∧ (1 : Nat) ≠ 0 :=
  ⟨rfl, by decide, by decide⟩

/-! ## C5: writer `n_rows` / `n_cols` tracking -/

theorem applyWriteOps_one (w : WriterCounters) (r : List Int) (l : List WriteOp) :
    applyWriteOps w (.one r :: l) = applyWriteOps (insertRow w r) l := rfl

theorem applyWriteOps_many (w : WriterCounters) (rs : List (List Int)) (l : List WriteOp) :
    applyWriteOps w (.many rs :: l) = applyWriteOps (insertRows w rs) l := rfl

theorem consideredLengths_one (r : List Int) (l : List WriteOp) :
    consideredLengths (.one r :: l) = r.length :: consideredLengths l := rfl

theorem consideredLengths_many (rs : List (List Int)) (l : List WriteOp) :
    consideredLengths (.many rs :: l) =
      (rs.take 100).map List.length ++ consideredLengths l := rfl

theorem insertRow_empty_cache (w : WriterCounters) (hc : w.cache = []) (r : List Int) :
    insertRow w r =
      { n_rows := w.n_rows + 1, n_cols := max w.n_cols r.length, cache := [] } := by
  simp [insertRow, writeRowsCounters, hc,
    List.take_of_length_le (by simp : ([r] : List (List Int)).length ≤ 100)]

theorem insertRows_empty_cache (w : WriterCounters) (hc : w.cache = [])
    (rs : List (List Int)) (h : rs ≠ []) :
    insertRows w rs =
      { n_rows := w.n_rows + rs.length,
        n_cols := ((rs.take 100).map List.length).foldl max w.n_cols,
        cache := [] } := by
  simp [insertRows, writeRowsCounters, hc, h]

theorem insertRows_nil (w : WriterCounters) (hc : w.cache = []) :
    insertRows w [] = w := by
  obtain ⟨a, b, c⟩ := w
  subst hc
  rfl

/-- C5, corrected.  Original claim: after any sequence of appends,
`n_cols` is the running `max` over the lengths of every appended row, and
`n_rows` the number of appended rows.  `_write_rows` folds `max` only over
`rows[:100]` of each batch, so an `insert_rows` batch longer than 100 rows
can leave a wider later row uncounted (see
`c5_writer_counters_counterexample`); `insert_row` flushes one-row
batches, so its rows are always counted.  Amended: starting from a writer
with an empty cache, `n_rows` grows by the number of appended rows, and
`n_cols` is the `max`-fold over the lengths of the considered rows: all
`insert_row` rows and the first 100 rows of each `insert_rows` batch. -/
theorem c5_writer_counters (ops : List WriteOp) (w : WriterCounters) (hc : w.cache = []) :
    (applyWriteOps w ops).n_rows = w.n_rows + opsRowCount ops ∧
    (applyWriteOps w ops).n_cols = (consideredLengths ops).foldl max w.n_cols := by
  induction ops generalizing w with
  | nil => simp [applyWriteOps, opsRowCount, consideredLengths]
  | cons op l ih =>
    cases op with
    | one r =>
      rw [applyWriteOps_one, insertRow_empty_cache w hc r]
      obtain ⟨ih1, ih2⟩ :=
        ih { n_rows := w.n_rows + 1, n_cols := max w.n_cols r.length, cache := [] } rfl
      refine ⟨?_, ?_⟩
      · rw [ih1]; simp [opsRowCount, opRowCount]; omega
      · rw [ih2, consideredLengths_one, List.foldl_cons]
    | many rs =>
      rcases eq_or_ne rs [] with hrs | hrs
      · subst hrs
        rw [applyWriteOps_many, insertRows_nil w hc]
        obtain ⟨ih1, ih2⟩ := ih w hc
        refine ⟨?_, ?_⟩
        · rw [ih1]; simp [opsRowCount, opRowCount]
        · rw [ih2, consideredLengths_many]; simp
      · rw [applyWriteOps_many, insertRows_empty_cache w hc rs hrs]
        obtain ⟨ih1, ih2⟩ :=
          ih { n_rows := w.n_rows + rs.length,
               n_cols := ((rs.take 100).map List.length).foldl max w.n_cols,
               cache := [] } rfl
        refine ⟨?_, ?_⟩
        · rw [ih1]; simp [opsRowCount, opRowCount]; omega
        · rw [ih2, consideredLengths_many, List.foldl_append]

/-- Witness for C5: a concrete operation sequence (one single-row insert,
one two-row batch) from a writer that already holds 5 rows and 1 column. -/
theorem c5_writer_counters_witness :
    (applyWriteOps { n_rows := 5, n_cols := 1, cache := [] }
        [.one [3, 4], .many [[1], [2, 3, 4]]]).n_rows =
      5 + opsRowCount [.one [3, 4], .many [[1], [2, 3, 4]]] ∧
    (applyWriteOps { n_rows := 5, n_cols := 1, cache := [] }
        [.one [3, 4], .many [[1], [2, 3, 4]]]).n_cols =
      (consideredLengths [.one [3, 4], .many [[1], [2, 3, 4]]]).foldl max 1 :=
  c5_writer_counters _ _ rfl

/-- Counterexample for C5 as stated: an `insert_rows` batch of 100 rows of
width 1 followed by one row of width 2 leaves `n_cols = 1`, though the
maximum appended row length is 2 — row 101 is outside `rows[:100]`. -/
theorem c5_writer_counters_counterexample :
    (applyWriteOps { n_rows := 0, n_cols := 0, cache := [] }
        [.many (List.replicate 100 [0] ++ [[0, 0]])]).n_cols = 1 ∧
    ((List.replicate 100 ([0] : List Int) ++ [[0, 0]]).map List.length).foldl max 0 = 2 ∧
    (1 : Nat) ≠ 2 := by
  set_option maxRecDepth 10000 in decide

/-! ## C6: header mangler -/

theorem dropWhile_eq_self_head (p : Nat → Bool) (l : List Nat)
    (h : ∀ a, l.head? = some a → p a = false) : l.dropWhile p = l := by
  cases l with
  | nil => rfl
  | cons a t => simp [List.dropWhile_cons, h a rfl]

theorem dropWhile_eq_self_of_all (p : Nat → Bool) (l : List Nat)
    (h : ∀ c ∈ l, p c = false) : l.dropWhile p = l := by
  cases l with
  | nil => rfl
  | cons a t => simp [List.dropWhile_cons, h a (List.mem_cons_self a t)]

theorem map_eq_self_of (f : Nat → Nat) (l : List Nat) (h : ∀ c ∈ l, f c = c) :
    l.map f = l := by
  induction l with
  | nil => rfl
  | cons a t ih =>
    rw [List.map_cons, h a (List.mem_cons_self a t),
      ih (fun c hc => h c (List.mem_cons_of_mem a hc))]

theorem mem_collapseUnders (c : Nat) : ∀ l : List Nat, c ∈ collapseUnders l → c ∈ l := by
  intro l
  induction l with
  | nil => simp [collapseUnders]
  | cons a t ih =>
    cases t with
    | nil => simp [collapseUnders]
    | cons b r =>
      simp only [collapseUnders]
      split
      · intro h
        exact List.mem_cons_of_mem a (ih h)
      · intro h
        rcases List.mem_cons.mp h with h1 | h2
        · exact h1 ▸ List.mem_cons_self a _
        · exact List.mem_cons_of_mem a (ih h2)

theorem collapseUnders_head (a : Nat) (l : List Nat) :
    ∃ t, collapseUnders (a :: l) = a :: t := by
  induction l generalizing a with
  | nil => exact ⟨[], rfl⟩
  | cons b r ih =>
    simp only [collapseUnders]
    split
    · rename_i hab
      simp only [Bool.and_eq_true, beq_iff_eq] at hab
      obtain ⟨t, ht⟩ := ih b
      exact ⟨t, by rw [ht, hab.1, hab.2]⟩
    · exact ⟨collapseUnders (b :: r), rfl⟩

theorem noUnderRun_collapseUnders (l : List Nat) :
    noUnderRun (collapseUnders l) = true := by
  induction l with
  | nil => rfl
  | cons a t ih =>
    cases t with
    | nil => rfl
    | cons b r =>
      simp only [collapseUnders]
      split
      · exact ih
      · rename_i hab
        obtain ⟨t2, ht2⟩ := collapseUnders_head b r
        rw [ht2]
        simp only [noUnderRun, Bool.and_eq_true, Bool.not_eq_true']
        refine ⟨by simpa using hab, ?_⟩
        rw [← ht2]
        exact ih

theorem collapseUnders_of_noUnderRun (l : List Nat) (h : noUnderRun l = true) :
    collapseUnders l = l := by
  induction l with
  | nil => rfl
  | cons a t ih =>
    cases t with
    | nil => rfl
    | cons b r =>
      simp only [noUnderRun, Bool.and_eq_true, Bool.not_eq_true'] at h
      obtain ⟨h1, h2⟩ := h
      simp only [collapseUnders, h1]
      rw [ih h2]
      simp

theorem noUnderRun_take (l : List Nat) (n : Nat) (h : noUnderRun l = true) :
    noUnderRun (l.take n) = true := by
  induction l generalizing n with
  | nil => simp [List.take_nil]; rfl
  | cons a t ih =>
    cases n with
    | zero => rfl
    | succ m =>
      cases t with
      | nil => cases m <;> rfl
      | cons b r =>
        simp only [noUnderRun, Bool.and_eq_true] at h
        obtain ⟨h1, h2⟩ := h
        rw [List.take_succ_cons]
        cases m with
        | zero => rfl
        | succ k =>
          have hk := ih (k + 1) h2
          rw [List.take_succ_cons] at hk ⊢
          simp only [noUnderRun, Bool.and_eq_true]
          exact ⟨h1, hk⟩

theorem dropWhile_eq_drop (p : Nat → Bool) (l : List Nat) :
    ∃ k, l.dropWhile p = l.drop k := by
  induction l with
  | nil => exact ⟨0, rfl⟩
  | cons a t ih =>
    by_cases h : p a = true
    · obtain ⟨k, hk⟩ := ih
      exact ⟨k + 1, by simp [List.dropWhile_cons, h, hk]⟩
    · exact ⟨0, by simp [List.dropWhile_cons, h]⟩

theorem rstripUnders_eq_take (l : List Nat) : ∃ n, rstripUnders l = l.take n := by
  obtain ⟨k, hk⟩ := dropWhile_eq_drop (· == 95) l.reverse
  refine ⟨l.length - k, ?_⟩
  rw [rstripUnders, hk, List.reverse_drop]
  simp

theorem mem_rstripUnders (c : Nat) (l : List Nat) (h : c ∈ rstripUnders l) : c ∈ l := by
  obtain ⟨n, hn⟩ := rstripUnders_eq_take l
  rw [hn] at h
  exact List.mem_of_mem_take h

theorem head_dropWhile_false (p : Nat → Bool) (l : List Nat) (a : Nat)
    (h : (l.dropWhile p).head? = some a) : p a = false := by
  induction l with
  | nil => simp [List.dropWhile] at h
  | cons x t ih =>
    by_cases hx : p x = true
    · rw [List.dropWhile_cons, if_pos hx] at h
      exact ih h
    · rw [List.dropWhile_cons, if_neg hx] at h
      simp only [List.head?_cons, Option.some.injEq] at h
      subst h
      exact Bool.not_eq_true _ ▸ hx

theorem rstripUnders_getLast (l : List Nat) :
    ((rstripUnders l).getLast?.getD 0 == 95) = false := by
  rw [rstripUnders, List.getLast?_reverse]
  cases hh : (l.reverse.dropWhile (· == 95)).head? with
  | none => rfl
  | some a =>
    have := head_dropWhile_false _ _ a hh
    simpa using this

theorem isOutByte_mangle_char (c : Nat) :
    isOutByte (lowerByte (if isWordByte c then c else 95)) = true := by
  by_cases hw : isWordByte c = true
  · rw [if_pos hw]
    simp only [isWordByte, Bool.or_eq_true, Bool.and_eq_true, decide_eq_true_eq,
      beq_iff_eq] at hw
    unfold lowerByte isOutByte
    split
    · rename_i h65
      simp only [Bool.and_eq_true, decide_eq_true_eq] at h65
      simp only [Bool.or_eq_true, Bool.and_eq_true, decide_eq_true_eq, beq_iff_eq]
      omega
    · rename_i h65
      simp only [Bool.and_eq_true, decide_eq_true_eq, not_and, not_le] at h65
      simp only [Bool.or_eq_true, Bool.and_eq_true, decide_eq_true_eq, beq_iff_eq]
      omega
  · rw [if_neg hw]
    decide

theorem headerMangler_all_out (s : List Nat) :
    (headerMangler s).all isOutByte = true := by
  rw [List.all_eq_true]
  intro c hc
  have h1 := mem_rstripUnders c _ hc
  have h2 := mem_collapseUnders c _ h1
  rw [List.mem_map] at h2
  obtain ⟨d, hd, rfl⟩ := h2
  rw [List.mem_map] at hd
  obtain ⟨e, _, rfl⟩ := hd
  exact isOutByte_mangle_char e

theorem headerMangler_fixed (out : List Nat) (hall : ∀ c ∈ out, isOutByte c = true)
    (hrun : noUnderRun out = true)
    (hlast : (out.getLast?.getD 0 == 95) = false) :
    headerMangler out = out := by
  have hout : ∀ c ∈ out, (48 ≤ c ∧ c ≤ 57) ∨ (97 ≤ c ∧ c ≤ 122) ∨ c = 95 := by
    intro c hc
    have := hall c hc
    simpa only [isOutByte, Bool.or_eq_true, Bool.and_eq_true, decide_eq_true_eq,
      beq_iff_eq, or_assoc] using this
  have hns : ∀ c ∈ out, isSpaceByte c = false := by
    intro c hc
    have := hout c hc
    simp only [isSpaceByte, Bool.or_eq_false_iff, beq_eq_false_iff_ne, ne_eq]
    omega
  have hstrip : pyStrip out = out := by
    rw [pyStrip, dropWhile_eq_self_of_all _ _ hns,
      dropWhile_eq_self_of_all _ _ (fun c hc => hns c (List.mem_reverse.mp hc)),
      List.reverse_reverse]
  have hrepl : out.map (fun c => if isWordByte c then c else 95) = out := by
    refine map_eq_self_of _ _ (fun c hc => ?_)
    have := hout c hc
    rw [if_pos]
    simp only [isWordByte, Bool.or_eq_true, Bool.and_eq_true, decide_eq_true_eq, beq_iff_eq]
    omega
  have hlow : out.map lowerByte = out := by
    refine map_eq_self_of _ _ (fun c hc => ?_)
    have := hout c hc
    unfold lowerByte
    rw [if_neg]
    simp only [Bool.and_eq_true, decide_eq_true_eq, not_and, not_le]
    omega
  have hrs : rstripUnders out = out := by
    rw [rstripUnders]
    rw [dropWhile_eq_self_head _ _ (fun a ha => ?_), List.reverse_reverse]
    rw [List.head?_reverse] at ha
    rw [ha] at hlast
    simpa using hlast
  rw [headerMangler, hstrip, hrepl, hlow, collapseUnders_of_noUnderRun out hrun, hrs]

/-- C6, corrected.  Original claim: the mangler is idempotent and maps
into `[a-z0-9_]+` with no leading and no trailing underscore.  The source
only strips trailing underscores (`.rstrip` with no `.lstrip`), so a
leading underscore survives (see `c6_header_mangler_counterexample`; the
output can also be empty).  Amended: the mangler is idempotent, every
output byte is in `[a-z0-9_]`, and the output never ends in an
underscore; a leading underscore — and the empty output — are possible. -/
theorem c6_header_mangler (s : List Nat) :
    headerMangler (headerMangler s) = headerMangler s ∧
    (headerMangler s).all isOutByte = true ∧
    ((headerMangler s).getLast?.getD 0 == 95) = false := by
  have hall := headerMangler_all_out s
  have hallm : ∀ c ∈ headerMangler s, isOutByte c = true := List.all_eq_true.mp hall
  have hrun : noUnderRun (headerMangler s) = true := by
    rw [headerMangler]
    obtain ⟨n, hn⟩ := rstripUnders_eq_take
      (collapseUnders (((pyStrip s).map (fun c => if isWordByte c then c else 95)).map lowerByte))
    rw [hn]
    exact noUnderRun_take _ n (noUnderRun_collapseUnders _)
  have hlast : ((headerMangler s).getLast?.getD 0 == 95) = false := by
    rw [headerMangler]
    exact rstripUnders_getLast _
  exact ⟨headerMangler_fixed _ hallm hrun hlast, hall, hlast⟩

/-- Counterexample for C6 as stated: the input `"_a"` (bytes 95, 97) is a
fixed point of the mangler, so the output starts with an underscore,
against the claimed "no leading underscore". -/
theorem c6_header_mangler_counterexample :
    headerMangler [95, 97] = [95, 97] ∧ ([95, 97] : List Nat).head? = some 95 := by
  decide

/-! ## C7: StatSet histogram off-by-one -/

theorem statSetAddAll_append (s : StatSet) (l1 l2 : List Int) :
    statSetAddAll s (l1 ++ l2) = statSetAddAll (statSetAddAll s l1) l2 :=
  List.foldl_append _ _ _ _

theorem c7_flatten_step (s : StatSet) (n : Nat) (ch : List Int) :
    statSetAddAll s ((List.replicate (n + 1) ch).flatten) =
      statSetAddAll (statSetAddAll s ch) ((List.replicate n ch).flatten) := by
  rw [List.replicate_succ, List.flatten_cons, statSetAddAll_append]

set_option maxRecDepth 100000 in
theorem c7_chunk_0 : statSetAddAll (initStatSet .interval) chunk250 = primerState 5 := by
  decide

set_option maxRecDepth 100000 in
theorem c7_chunk_1 : statSetAddAll (primerState 5) chunk250 = primerState 10 := by
  decide

set_option maxRecDepth 100000 in
theorem c7_chunk_2 : statSetAddAll (primerState 10) chunk250 = primerState 15 := by
  decide

set_option maxRecDepth 100000 in
theorem c7_chunk_3 : statSetAddAll (primerState 15) chunk250 = primerState 20 := by
  decide

set_option maxRecDepth 100000 in
theorem c7_chunk_4 : statSetAddAll (primerState 20) chunk250 = primerState 25 := by
  decide

set_option maxRecDepth 100000 in
theorem c7_chunk_5 : statSetAddAll (primerState 25) chunk250 = primerState 30 := by
  decide

set_option maxRecDepth 100000 in
theorem c7_chunk_6 : statSetAddAll (primerState 30) chunk250 = primerState 35 := by
  decide

set_option maxRecDepth 100000 in
theorem c7_chunk_7 : statSetAddAll (primerState 35) chunk250 = primerState 40 := by
  decide

set_option maxRecDepth 100000 in
theorem c7_chunk_8 : statSetAddAll (primerState 40) chunk250 = primerState 45 := by
  decide

set_option maxRecDepth 100000 in
theorem c7_chunk_9 : statSetAddAll (primerState 45) chunk250 = primerState 50 := by
  decide

set_option maxRecDepth 100000 in
theorem c7_chunk_10 : statSetAddAll (primerState 50) chunk250 = primerState 55 := by
  decide

set_option maxRecDepth 100000 in
theorem c7_chunk_11 : statSetAddAll (primerState 55) chunk250 = primerState 60 := by
  decide

set_option maxRecDepth 100000 in
theorem c7_chunk_12 : statSetAddAll (primerState 60) chunk250 = primerState 65 := by
  decide

set_option maxRecDepth 100000 in
theorem c7_chunk_13 : statSetAddAll (primerState 65) chunk250 = primerState 70 := by
  decide

set_option maxRecDepth 100000 in
theorem c7_chunk_14 : statSetAddAll (primerState 70) chunk250 = primerState 75 := by
  decide

set_option maxRecDepth 100000 in
theorem c7_chunk_15 : statSetAddAll (primerState 75) chunk250 = primerState 80 := by
  decide

set_option maxRecDepth 100000 in
theorem c7_chunk_16 : statSetAddAll (primerState 80) chunk250 = primerState 85 := by
  decide

set_option maxRecDepth 100000 in
theorem c7_chunk_17 : statSetAddAll (primerState 85) chunk250 = primerState 90 := by
  decide

set_option maxRecDepth 100000 in
theorem c7_chunk_18 : statSetAddAll (primerState 90) chunk250 = primerState 95 := by
  decide

set_option maxRecDepth 100000 in
theorem c7_chunk_19 : statSetAddAll (primerState 95) chunk250 = c7FinalState := by
  decide

theorem c7_final_value : c7Final = c7FinalState := by
  rw [c7Final, c7Input]
  rw [c7_flatten_step _ 19 _, c7_chunk_0]
  rw [c7_flatten_step _ 18 _, c7_chunk_1]
  rw [c7_flatten_step _ 17 _, c7_chunk_2]
  rw [c7_flatten_step _ 16 _, c7_chunk_3]
  rw [c7_flatten_step _ 15 _, c7_chunk_4]
  rw [c7_flatten_step _ 14 _, c7_chunk_5]
  rw [c7_flatten_step _ 13 _, c7_chunk_6]
  rw [c7_flatten_step _ 12 _, c7_chunk_7]
  rw [c7_flatten_step _ 11 _, c7_chunk_8]
  rw [c7_flatten_step _ 10 _, c7_chunk_9]
  rw [c7_flatten_step _ 9 _, c7_chunk_10]
  rw [c7_flatten_step _ 8 _, c7_chunk_11]
  rw [c7_flatten_step _ 7 _, c7_chunk_12]
  rw [c7_flatten_step _ 6 _, c7_chunk_13]
  rw [c7_flatten_step _ 5 _, c7_chunk_14]
  rw [c7_flatten_step _ 4 _, c7_chunk_15]
  rw [c7_flatten_step _ 3 _, c7_chunk_16]
  rw [c7_flatten_step _ 2 _, c7_chunk_17]
  rw [c7_flatten_step _ 1 _, c7_chunk_18]
  rw [c7_flatten_step _ 0 _, c7_chunk_19]
  rfl

set_option maxRecDepth 1000000 in
/-- C7: the code_bug evaluation.  A numeric StatSet fed the 5000 values
`i % 50` (`i = 0, ..., 4999`) reaches `count = 5000` with
`sum(bins) = 4999`, although every added value lies inside the computed
`[bin_min, bin_max]`: the 5000th add fixes the bounds from the 4999
primer values (`if self.n < self.bin_primer_count` collects only adds
1..4999) and reclassifies the primer, but the 5000th value itself is
neither in the primer counter nor binned.  The claim's
`sum(bins) = count` therefore fails; the source itself warns "There are
probably a lot of 1-off errors in this" (stats.py:127). -/
theorem c7_statset_histogram_gap :
    c7Final.n = 5000 ∧
    binsSum c7Final = 4999 ∧
    (List.replicate 20 chunk250).all (fun ch => ch.all (withinBins c7Final)) = true ∧
    c7Final.lom = .interval ∧
    (4999 : Nat) ≠ 5000 := by
  rw [c7_final_value]
  refine ⟨rfl, by decide, by decide, rfl, by decide⟩

/-! ## C8: stats sampling stride -/

theorem sampleLoop_eq_filter {α : Type} (skip : Nat) (j : Nat) (rows : List α) :
    sampleLoop skip j rows =
      ((List.enumFrom j rows).filter (fun p => p.1 % skip == 0)).map Prod.snd := by
  induction rows generalizing j with
  | nil => rfl
  | cons r rest ih =>
    simp only [sampleLoop, List.enumFrom, List.filter_cons]
    by_cases h : (j % skip == 0) = true
    · simp [h, ih (j + 1)]
    · simp [h, ih (j + 1)]

/-- C8, corrected.  Original claim: with `sample_from` larger than 10,000
the run processes approximately every `sample_from/10,000`-th row,
otherwise every row.  The stride only engages when
`average_skip = sample_from / 10000` (integer division, Python 2) exceeds
4 — i.e. `sample_from ≥ 50,000` — so for `sample_from` between 10,001 and
49,999 every row is processed (see `c8_stats_run_counterexample`).
Amended: with `sample_from / 10000 > 4` the run processes exactly the
rows whose 0-based index is divisible by `sample_from / 10000`; otherwise
(including `sample_from` absent) it processes every row. -/
theorem c8_stats_run_sampling {α : Type} (n : Nat) (rows : List α) :
    statsRun (some n) rows =
      (if 4 < n / 10000 then
        ((List.enumFrom 0 rows).filter (fun p => p.1 % (n / 10000) == 0)).map Prod.snd
      else rows) ∧
    statsRun (Option.none : Option Nat) rows = rows := by
  constructor
  · simp only [statsRun]
    split
    · exact sampleLoop_eq_filter _ 0 rows
    · rfl
  · rfl

/-- Counterexample for C8 as stated: `sample_from = 40000` is larger than
10,000, and the claimed stride of `40000/10000 = 4` would process rows
`[0, 4]` of eight rows, but the run processes all eight rows
(`average_skip > 4` is false). -/
theorem c8_stats_run_counterexample :
    statsRun (some 40000) (List.range 8) = List.range 8 ∧
    10000 < 40000 ∧
    sampleLoop (40000 / 10000) 0 (List.range 8) = [0, 4] ∧
    List.range 8 ≠ [0, 4] := by
  decide

/-! ## C9: SQL type map has no entry for `time` -/

theorem mem_insertByPos (c d : MedColumn) (l : List MedColumn) :
    d ∈ insertByPos c l ↔ d = c ∨ d ∈ l := by
  induction l with
  | nil => simp [insertByPos]
  | cons e t ih =>
    simp only [insertByPos]
    split
    · simp [List.mem_cons]
    · simp only [List.mem_cons, ih]
      tauto

theorem mem_sortByPos (d : MedColumn) (l : List MedColumn) :
    d ∈ sortByPos l ↔ d ∈ l := by
  induction l with
  | nil => simp [sortByPos]
  | cons c t ih => simp [sortByPos, mem_insertByPos, ih, List.mem_cons]

theorem createColumnDefs_isOk (l : List MedColumn)
    (h : ∀ c ∈ l, (typeMapGet c.type).isSome = true) :
    (createColumnDefs l).isOk = true := by
  induction l with
  | nil => rfl
  | cons c t ih =>
    have hc := h c (List.mem_cons_self c t)
    have ht := ih (fun d hd => h d (List.mem_cons_of_mem c hd))
    simp only [createColumnDefs]
    cases hg : typeMapGet c.type with
    | none => rw [hg] at hc; simp at hc
    | some sqlType =>
      cases hrec : createColumnDefs t with
      | error e => rw [hrec] at ht; simp [Except.isOk, Except.toBool] at ht
      | ok v => simp [hrec, Except.map, Except.isOk, Except.toBool]

/-- C9, corrected.  Original claim: `Create` succeeds whenever all column
types are in int/float/string/bytes/date/datetime/time, mapping time to
TEXT.  `TYPE_MAP` (med/sqlite.py:20-27) has no `time` entry, so a `time`
column makes `Create` raise (see `c9_source_create_counterexample`).
Amended: `Create` succeeds when every column type is one of int, float,
str, bytes, date, datetime — mapped to INTEGER, REAL, TEXT, TEXT, DATE,
TIMESTAMP WITHOUT TIME ZONE respectively — and `time` is unmapped. -/
theorem c9_source_create (tablename : String) (cols : List MedColumn)
    (h : ∀ c ∈ cols, c.type ∈ ["int", "float", "str", "bytes", "date", "datetime"]) :
    (sourceCreate tablename cols).isOk = true ∧
    typeMapGet "int" = some "INTEGER" ∧
    typeMapGet "float" = some "REAL" ∧
    typeMapGet "str" = some "TEXT" ∧
    typeMapGet "bytes" = some "TEXT" ∧
    typeMapGet "date" = some "DATE" ∧
    typeMapGet "datetime" = some "TIMESTAMP WITHOUT TIME ZONE" ∧
    typeMapGet "time" = Option.none := by
  refine ⟨?_, rfl, rfl, rfl, rfl, rfl, rfl, rfl⟩
  have hok : (createColumnDefs (sortByPos cols)).isOk = true := by
    refine createColumnDefs_isOk _ (fun c hc => ?_)
    have hmem := h c ((mem_sortByPos c cols).mp hc)
    simp only [List.mem_cons, List.not_mem_nil, or_false] at hmem
    rcases hmem with h1 | h1 | h1 | h1 | h1 | h1 <;> rw [h1] <;> rfl
  rw [sourceCreate]
  cases hrec : createColumnDefs (sortByPos cols) with
  | error e => rw [hrec] at hok; simp [Except.isOk, Except.toBool] at hok
  | ok v => simp [Except.map, Except.isOk, Except.toBool]

/-- Witness for C9: two concrete supported columns. -/
theorem c9_source_create_witness :
    (sourceCreate "t1" [{ name := "id", type := "int", pos := 1 },
                        { name := "name", type := "str", pos := 2 }]).isOk = true ∧
    typeMapGet "int" = some "INTEGER" ∧
    typeMapGet "float" = some "REAL" ∧
    typeMapGet "str" = some "TEXT" ∧
    typeMapGet "bytes" = some "TEXT" ∧
    typeMapGet "date" = some "DATE" ∧
    typeMapGet "datetime" = some "TIMESTAMP WITHOUT TIME ZONE" ∧
    typeMapGet "time" = Option.none :=
  c9_source_create "t1" _ (by decide)

/-- Counterexample for C9 as stated: a single `time` column makes `Create`
raise instead of mapping the column to TEXT. -/
theorem c9_source_create_counterexample :
    sourceCreate "t1" [{ name := "c1", type := "time", pos := 1 }] =
      .error "Do not know how to convert time to sql column." ∧
    typeMapGet "time" = Option.none :=
  ⟨rfl, rfl⟩

/-! ## C10: `MPRowsFile.close` touches the reader, never the writer -/

/-- C10, confirmed.  `MPRowsFile.close` closes the reader attribute and
never the writer: the writer handle (pending rows and all) is unchanged
in every outcome; the call raises (`AttributeError`) exactly when a
writer is set and the reader attribute is `None` by the second branch —
in particular whenever no reader was ever opened — and an open reader is
closed by the first branch. -/
theorem c10_close_closes_reader_not_writer (st : MPRFileHandles) :
    (mprFileClose st).2.writer = st.writer ∧
    (mprFileClose st).1.isSome =
      (st.writer.isSome && (match st.reader with
        | Option.none => true
        | some r => r.fhOpen)) ∧
    (mprFileClose st).2.reader =
      (match st.reader with
       | Option.none => Option.none
       | some r => if r.fhOpen then Option.none else some r) := by
  obtain ⟨r, w⟩ := st
  cases r with
  | none => cases w <;> simp [mprFileClose, readerClose]
  | some rr =>
    obtain ⟨fo⟩ := rr
    cases fo <;> cases w <;> simp [mprFileClose, readerClose]

end AmbrySources


